import Mathlib

/-!
Verification development for the lichess puzzle statistics pipeline
(src/puzzle.py). The Python program is shallowly embedded: dates are
proleptic Gregorian ordinal day numbers (Int), datetime.date.min is
ordinal 1, date subtraction yields a day count, remote failures are an
explicit error type, and the fetch loop is a recursive function over
the candidate list carrying an explicit state (cache, persisted copy,
counters). Fallible code returns Except.
-/

namespace LichessPuzzleStats

/-! ## Data model -/

abbrev UserId := String

abbrev Score := Int

/-- A calendar date as a proleptic Gregorian ordinal day number, the
integer that Python datetime.date.toordinal returns; subtraction of two
such numbers is the timedelta day count. -/
abbrev Day := Int

/-- datetime.date.min is 0001-01-01, ordinal 1. -/
def dateMin : Day := 1

/-- Raw history point as returned by the remote API: year, zero-based
month, day of month, rating value. -/
structure RawPoint where
  y : Nat
  m : Nat
  d : Nat
  v : Int
deriving DecidableEq

/-- A cached per-user history: none when the user has no puzzle history. -/
abbrev Perf := Option (List RawPoint)

/-- The cache: a list of (user, history) pairs, appended in fetch order. -/
abbrev Cache := List (UserId × Perf)

/-- Errors surfaced by the remote client: an HTTP ResponseError with a
status code, or any other exception. -/
inductive RemoteErr where
  | response (status : Nat)
  | other
deriving DecidableEq

/-- One entry of a rating history: the track name and its points. -/
structure TrackEntry where
  name : String
  points : List RawPoint
deriving DecidableEq

/-! ## retry (src/puzzle.py lines 28-37)

The wrapped operation is modelled as a function from the attempt index
to its outcome; the result records how many times the operation was
invoked and how long the wrapper slept, alongside the returned value or
the propagated error. -/

structure RetryResult (A : Type) where
  calls : Nat
  sleepSeconds : Nat
  outcome : Except RemoteErr A

def retry {A : Type} (f : Nat → Except RemoteErr A) : RetryResult A :=
  match f 0 with
  | .ok a => ⟨1, 0, .ok a⟩
  | .error err =>
    match err with
    | .response s =>
      if s = 429 then
        match f 1 with
        | .ok a => ⟨2, 61, .ok a⟩
        | .error e => ⟨2, 61, .error e⟩
      else ⟨1, 0, .error (.response s)⟩
    | .other => ⟨1, 0, .error .other⟩

/-! ## get_puzzle_history (src/puzzle.py lines 114-135) -/

/-- The trailing lines of get_puzzle_history: keep the tracks named
Puzzles; if none remain return None, else the first such track's points. -/
def puzzleTrack (history : List TrackEntry) : Option (List RawPoint) :=
  match history.filter (fun h => h.name == "Puzzles") with
  | [] => none
  | t :: _ => some t.points

/-- get_puzzle_history: attempt 0 is the initial remote call; on a 429
the code sleeps and calls again (attempt 1), and any exception from that
retry propagates; a 404 and any non-ResponseError exception are absorbed
as None; a ResponseError with any other status is re-raised. -/
def get_puzzle_history (attempt : Nat → Except RemoteErr (List TrackEntry)) :
    Except RemoteErr (Option (List RawPoint)) :=
  match attempt 0 with
  | .ok history => .ok (puzzleTrack history)
  | .error err =>
    match err with
    | .response s =>
      if s = 404 then .ok none
      else if s = 429 then
        match attempt 1 with
        | .ok history => .ok (puzzleTrack history)
        | .error e => .error e
      else .error (.response s)
    | .other => .ok none

/-! ## fetch_perf (src/puzzle.py lines 74-105) -/

/-- Python truthiness of a cached history value: None and the empty list
are falsy (the code tests if p and if h). -/
def truthyPerf : Perf → Bool
  | none => false
  | some [] => false
  | some (_ :: _) => true

/-- The linear scan for (u, p) in data with break on the first u == user. -/
def lookupUser (u : UserId) : Cache → Option Perf
  | [] => none
  | e :: rest => if e.1 = u then some e.2 else lookupUser u rest

/-- The mutable state of the fetch loop: the in-memory cache list, the
last snapshot written to disk by save, and the progress counters. -/
structure FetchState where
  data : Cache
  persisted : Cache
  checked : Nat
  cached : Nat
  withdata : Nat
  remoteCalls : Nat
deriving DecidableEq

/-- State update for a cache hit: checked and cached advance, withdata
advances when the cached history is truthy; no remote call, no write. -/
def hitState (s : FetchState) (p : Perf) : FetchState :=
  { s with checked := s.checked + 1, cached := s.cached + 1,
           withdata := s.withdata + (if truthyPerf p then 1 else 0) }

/-- State update for a resolved miss: the entry is appended and the
whole cache is immediately saved (persisted := the new data). -/
def missState (s : FetchState) (u : UserId) (h : Perf) : FetchState :=
  { s with checked := s.checked + 1, remoteCalls := s.remoteCalls + 1,
           withdata := s.withdata + (if truthyPerf h then 1 else 0),
           data := s.data ++ [(u, h)],
           persisted := s.data ++ [(u, h)] }

/-- State at the moment an exception from get_puzzle_history propagates:
the remote call happened, nothing was appended or saved. -/
def errState (s : FetchState) : FetchState :=
  { s with checked := s.checked + 1, remoteCalls := s.remoteCalls + 1 }

/-- fetch_perf: iterate the candidate users, stop once checked reaches
num, count a cache hit without any remote call, otherwise call
get_puzzle_history (abstracted as gph); an exception aborts the loop,
a result (history or None) is appended and saved before the next user. -/
def fetch_perf (gph : UserId → Except RemoteErr (Option (List RawPoint))) :
    List UserId → Nat → FetchState → FetchState × Option RemoteErr
  | [], _, s => (s, none)
  | u :: us, num, s =>
    if s.checked ≥ num then (s, none)
    else
      match lookupUser u s.data with
      | some p => fetch_perf gph us num (hitState s p)
      | none =>
        match gph u with
        | .error e => (errState s, some e)
        | .ok h => fetch_perf gph us num (missState s u h)

/-! ## parse_perf (src/puzzle.py lines 108-111) -/

abbrev DateYMD := Nat × Nat × Nat

/-- datetime.date(d[0], d[1] + 1, d[2]) paired with d[3]: the zero-based
month from the API is shifted to a calendar month here. -/
def normPoint (d : RawPoint) : DateYMD × Int :=
  ((d.y, d.m + 1, d.d), d.v)

/-- parse_perf: keep the users whose perf is truthy (neither None nor
empty) and normalize each of their points, preserving order. -/
def parse_perf (data : Cache) : List (UserId × List (DateYMD × Int)) :=
  data.filterMap fun e =>
    match e with
    | (_, none) => none
    | (_, some []) => none
    | (user, some perf) => some (user, perf.map normPoint)

/-! ## filter_perf (src/puzzle.py lines 180-212) -/

/-- Absolute day distance between two dates, abs(a - b) in days. -/
def dist (a b : Day) : Nat := (a - b).natAbs

/-- One iteration of the closest-point update for one target: the code
line if abs(day - target) < abs(target - closest[0]): closest = (day,
score). Strictly smaller distance replaces the incumbent. -/
def closestStep (target : Day) (best : Day × Option Score) (p : Day × Score) :
    Day × Option Score :=
  if dist p.1 target < dist target best.1 then (p.1, some p.2) else best

/-- The closest-point search for a single target, started from the
sentinel (datetime.date.min, None). -/
def closestTo (target : Day) (perf : List (Day × Score)) : Day × Option Score :=
  perf.foldl (closestStep target) (dateMin, none)

/-- The single pass of filter_perf over one user's points, updating the
four incumbents (closest_start, closest_ref_start, closest_end,
closest_ref_end) in the order the source writes them. -/
def gatherClosest (start ref_start end_ ref_end : Day) (perf : List (Day × Score)) :
    (Day × Option Score) × (Day × Option Score) × (Day × Option Score) ×
      (Day × Option Score) :=
  perf.foldl
    (fun st p =>
      (closestStep start st.1 p, closestStep ref_start st.2.1 p,
       closestStep end_ st.2.2.1 p, closestStep ref_end st.2.2.2 p))
    ((dateMin, none), (dateMin, none), (dateMin, none), (dateMin, none))

/-- Python truthiness of a matched score: None is falsy and so is the
integer 0. -/
def truthy : Option Score → Bool
  | none => false
  | some v => v != 0

/-- The per-user body of filter_perf: gather the four closest points,
then the acceptance test exactly as the source orders it, including
which tolerance each comparison uses: closest_start and
closest_ref_start against tolerance, closest_end and closest_ref_end
against ref_tolerance. On acceptance the emitted tuple is (start score,
end score, ref start score, ref end score). -/
def userSample (start end_ : Day) (tolerance : Nat) (ref_start ref_end : Day)
    (ref_tolerance : Nat) (perf : List (Day × Score)) :
    Option (Score × Score × Score × Score) :=
  let c := gatherClosest start ref_start end_ ref_end perf
  if truthy c.1.2 = true ∧ dist c.1.1 start ≤ tolerance ∧
     truthy c.2.1.2 = true ∧ dist c.2.1.1 ref_start ≤ tolerance ∧
     truthy c.2.2.1.2 = true ∧ dist c.2.2.1.1 end_ ≤ ref_tolerance ∧
     truthy c.2.2.2.2 = true ∧ dist c.2.2.2.1 ref_end ≤ ref_tolerance
  then some (c.1.2.getD 0, c.2.2.1.2.getD 0, c.2.1.2.getD 0, c.2.2.2.2.getD 0)
  else none

/-- filter_perf: apply the per-user body to every user in order and
collect the accepted tuples. -/
def filter_perf (data : List (UserId × List (Day × Score))) (start end_ : Day)
    (tolerance : Nat) (ref_start ref_end : Day) (ref_tolerance : Nat) :
    List (Score × Score × Score × Score) :=
  data.filterMap fun up => userSample start end_ tolerance ref_start ref_end
    ref_tolerance up.2

/-! ## Spec-side definitions, written from the specification text, to be
compared with the code-side definitions above. -/

/-- Acceptance predicate as the specification words it: the study
tolerance governs the start and end matches, the reference tolerance
governs the refStart and refEnd matches. -/
def meetsCriteriaSpec (start end_ : Day) (tolerance : Nat) (ref_start ref_end : Day)
    (ref_tolerance : Nat) (cs ce crs cre : Day × Option Score) : Bool :=
  truthy cs.2 && decide (dist cs.1 start ≤ tolerance) &&
  truthy ce.2 && decide (dist ce.1 end_ ≤ tolerance) &&
  truthy crs.2 && decide (dist crs.1 ref_start ≤ ref_tolerance) &&
  truthy cre.2 && decide (dist cre.1 ref_end ≤ ref_tolerance)

/-- Nearest match as the specification words it: the first point of the
sequence, in stored order, whose distance to the target attains the
minimum; a later point replaces an earlier one only when strictly
closer. -/
def firstMin (target : Day) : List (Day × Score) → Option (Day × Score)
  | [] => none
  | p :: ps =>
    match firstMin target ps with
    | none => some p
    | some q => if dist q.1 target < dist p.1 target then some q else some p

/-! ## Concrete fixtures used by closed witness checks -/

def wPoint : RawPoint := ⟨2020, 2, 4, 110⟩

def wCache : Cache := [("a", some [wPoint]), ("b", none)]

def wState : FetchState := ⟨wCache, wCache, 0, 0, 0, 0⟩

def wEmptyState : FetchState := ⟨[], [], 0, 0, 0, 0⟩

def wGph : UserId → Except RemoteErr (Option (List RawPoint)) := fun _ => Except.ok none

def wGphErr : UserId → Except RemoteErr (Option (List RawPoint)) :=
  fun _ => Except.error (RemoteErr.response 500)

/-! ## Helper lemmas -/

theorem dist_comm (a b : Day) : dist a b = dist b a := by
  unfold dist
  rw [← Int.natAbs_neg, neg_sub]

theorem gatherClosest_go (start ref_start end_ ref_end : Day)
    (perf : List (Day × Score)) :
    ∀ a b c d : Day × Option Score,
      perf.foldl
        (fun st p =>
          (closestStep start st.1 p, closestStep ref_start st.2.1 p,
           closestStep end_ st.2.2.1 p, closestStep ref_end st.2.2.2 p))
        (a, b, c, d) =
      (perf.foldl (closestStep start) a, perf.foldl (closestStep ref_start) b,
       perf.foldl (closestStep end_) c, perf.foldl (closestStep ref_end) d) := by
  induction perf with
  | nil => intro a b c d; rfl
  | cons p ps ih =>
    intro a b c d
    simp only [List.foldl_cons]
    exact ih _ _ _ _

/-- The fused four-target pass equals four independent single-target
searches. -/
theorem gatherClosest_eq (start ref_start end_ ref_end : Day)
    (perf : List (Day × Score)) :
    gatherClosest start ref_start end_ ref_end perf =
      (closestTo start perf, closestTo ref_start perf,
       closestTo end_ perf, closestTo ref_end perf) := by
  unfold gatherClosest closestTo
  exact gatherClosest_go start ref_start end_ ref_end perf _ _ _ _

theorem lookupUser_nil (u : UserId) : lookupUser u [] = none := rfl

theorem lookupUser_cons (u : UserId) (e : UserId × Perf) (rest : Cache) :
    lookupUser u (e :: rest) = if e.1 = u then some e.2 else lookupUser u rest := rfl

theorem lookupUser_eq_none_iff (u : UserId) (c : Cache) :
    lookupUser u c = none ↔ ∀ e ∈ c, e.1 ≠ u := by
  induction c with
  | nil => simp [lookupUser]
  | cons e rest ih =>
    rw [lookupUser_cons]
    by_cases h : e.1 = u
    · simp [h]
    · simp [h, ih]

theorem lookupUser_append_of_isSome (u : UserId) (c t : Cache) (p : Perf)
    (h : lookupUser u c = some p) : lookupUser u (c ++ t) = some p := by
  induction c with
  | nil => simp [lookupUser] at h
  | cons e rest ih =>
    rw [lookupUser_cons] at h
    rw [List.cons_append, lookupUser_cons]
    by_cases he : e.1 = u
    · simpa [he] using h
    · rw [if_neg he] at h ⊢
      exact ih h

theorem lookupUser_append_of_none (u : UserId) (c t : Cache)
    (h : lookupUser u c = none) : lookupUser u (c ++ t) = lookupUser u t := by
  induction c with
  | nil => rfl
  | cons e rest ih =>
    rw [lookupUser_cons] at h
    rw [List.cons_append, lookupUser_cons]
    by_cases he : e.1 = u
    · simp [he] at h
    · rw [if_neg he] at h ⊢
      exact ih h

theorem fetch_perf_nil (gph : UserId → Except RemoteErr (Option (List RawPoint)))
    (num : Nat) (s : FetchState) : fetch_perf gph [] num s = (s, none) := rfl

theorem fetch_perf_cons (gph : UserId → Except RemoteErr (Option (List RawPoint)))
    (u : UserId) (us : List UserId) (num : Nat) (s : FetchState) :
    fetch_perf gph (u :: us) num s =
      if s.checked ≥ num then (s, none)
      else
        match lookupUser u s.data with
        | some p => fetch_perf gph us num (hitState s p)
        | none =>
          match gph u with
          | .error e => (errState s, some e)
          | .ok h => fetch_perf gph us num (missState s u h) := rfl

theorem firstMin_cons (target : Day) (p : Day × Score) (ps : List (Day × Score)) :
    firstMin target (p :: ps) =
      match firstMin target ps with
      | none => some p
      | some q => if dist q.1 target < dist p.1 target then some q else some p := rfl

theorem firstMin_isSome (target : Day) (p : Day × Score) (ps : List (Day × Score)) :
    ∃ q, firstMin target (p :: ps) = some q := by
  rw [firstMin_cons]
  cases firstMin target ps with
  | none => exact ⟨p, rfl⟩
  | some q =>
    by_cases h : dist q.1 target < dist p.1 target
    · exact ⟨q, by simp [h]⟩
    · exact ⟨p, by simp [h]⟩

theorem firstMin_le (target : Day) :
    ∀ (perf : List (Day × Score)) (q : Day × Score), firstMin target perf = some q →
      ∀ p ∈ perf, dist q.1 target ≤ dist p.1 target := by
  intro perf
  induction perf with
  | nil => intro q hq; simp [firstMin] at hq
  | cons p ps ih =>
    intro q hq r hr
    rw [firstMin_cons] at hq
    cases hps : firstMin target ps with
    | none =>
      simp only [hps] at hq
      cases hq
      cases ps with
      | nil =>
        simp at hr
        subst hr
        exact le_refl _
      | cons a as =>
        obtain ⟨w, hw⟩ := firstMin_isSome target a as
        rw [hw] at hps
        cases hps
    | some q0 =>
      simp only [hps] at hq
      rcases List.mem_cons.mp hr with hr | hr
      · subst hr
        by_cases h : dist q0.1 target < dist r.1 target
        · rw [if_pos h] at hq; cases hq; exact le_of_lt h
        · rw [if_neg h] at hq; cases hq; exact le_refl _
      · have hq0 := ih q0 hps r hr
        by_cases h : dist q0.1 target < dist p.1 target
        · rw [if_pos h] at hq; cases hq; exact hq0
        · rw [if_neg h] at hq
          cases hq
          push_neg at h
          exact le_trans h hq0

/-- The strict-improvement fold of the source, started from any
incumbent, yields the first point attaining the minimal distance when
that beats the incumbent, and keeps the incumbent otherwise. -/
theorem foldl_closestStep (target : Day) (perf : List (Day × Score)) :
    ∀ best : Day × Option Score,
      perf.foldl (closestStep target) best =
        match firstMin target perf with
        | none => best
        | some q =>
          if dist q.1 target < dist best.1 target then (q.1, some q.2) else best := by
  induction perf with
  | nil => intro best; rfl
  | cons p ps ih =>
    intro best
    rw [List.foldl_cons, ih (closestStep target best p), firstMin_cons]
    cases hf : firstMin target ps with
    | none =>
      simp only
      unfold closestStep
      rw [dist_comm target best.1]
    | some q =>
      simp only
      by_cases hpb : dist p.1 target < dist best.1 target
      · by_cases hqp : dist q.1 target < dist p.1 target
        · have hqb : dist q.1 target < dist best.1 target := lt_trans hqp hpb
          simp [closestStep, dist_comm target best.1, hpb, hqp, hqb]
        · simp [closestStep, dist_comm target best.1, hpb, hqp]
      · by_cases hqp : dist q.1 target < dist p.1 target
        · simp [closestStep, dist_comm target best.1, hpb, hqp]
        · have hqb : ¬dist q.1 target < dist best.1 target := by omega
          simp [closestStep, dist_comm target best.1, hpb, hqp, hqb]

theorem hitState_data (s : FetchState) (p : Perf) : (hitState s p).data = s.data := rfl

theorem hitState_persisted (s : FetchState) (p : Perf) :
    (hitState s p).persisted = s.persisted := rfl

theorem hitState_checked (s : FetchState) (p : Perf) :
    (hitState s p).checked = s.checked + 1 := rfl

theorem hitState_remoteCalls (s : FetchState) (p : Perf) :
    (hitState s p).remoteCalls = s.remoteCalls := rfl

theorem missState_data (s : FetchState) (u : UserId) (h : Perf) :
    (missState s u h).data = s.data ++ [(u, h)] := rfl

theorem missState_persisted (s : FetchState) (u : UserId) (h : Perf) :
    (missState s u h).persisted = s.data ++ [(u, h)] := rfl

theorem missState_checked (s : FetchState) (u : UserId) (h : Perf) :
    (missState s u h).checked = s.checked + 1 := rfl

theorem missState_remoteCalls (s : FetchState) (u : UserId) (h : Perf) :
    (missState s u h).remoteCalls = s.remoteCalls + 1 := rfl

theorem errState_data (s : FetchState) : (errState s).data = s.data := rfl

theorem errState_persisted (s : FetchState) : (errState s).persisted = s.persisted := rfl

/-- Loop step: the processing cap has been reached, the run stops. -/
theorem fetch_perf_stop (gph : UserId → Except RemoteErr (Option (List RawPoint)))
    (u : UserId) (us : List UserId) (num : Nat) (s : FetchState)
    (hc : s.checked ≥ num) : fetch_perf gph (u :: us) num s = (s, none) := by
  rw [fetch_perf_cons, if_pos hc]

/-- Loop step: a cache hit advances the counters and triggers nothing. -/
theorem fetch_perf_hit (gph : UserId → Except RemoteErr (Option (List RawPoint)))
    (u : UserId) (us : List UserId) (num : Nat) (s : FetchState) (p : Perf)
    (hc : ¬s.checked ≥ num) (hl : lookupUser u s.data = some p) :
    fetch_perf gph (u :: us) num s = fetch_perf gph us num (hitState s p) := by
  rw [fetch_perf_cons, if_neg hc, hl]

/-- Loop step: a miss resolved to a history or an explicit no-data result
appends the entry, persists, and continues. -/
theorem fetch_perf_miss (gph : UserId → Except RemoteErr (Option (List RawPoint)))
    (u : UserId) (us : List UserId) (num : Nat) (s : FetchState) (h : Perf)
    (hc : ¬s.checked ≥ num) (hl : lookupUser u s.data = none)
    (hg : gph u = .ok h) :
    fetch_perf gph (u :: us) num s = fetch_perf gph us num (missState s u h) := by
  rw [fetch_perf_cons, if_neg hc, hl, hg]

/-- Loop step: an exception from the history fetch propagates and aborts
the loop. -/
theorem fetch_perf_abort (gph : UserId → Except RemoteErr (Option (List RawPoint)))
    (u : UserId) (us : List UserId) (num : Nat) (s : FetchState) (e : RemoteErr)
    (hc : ¬s.checked ≥ num) (hl : lookupUser u s.data = none)
    (hg : gph u = .error e) :
    fetch_perf gph (u :: us) num s = (errState s, some e) := by
  rw [fetch_perf_cons, if_neg hc, hl, hg]

/-- The cache list only grows: whatever happens, the final data extends
the initial data. -/
theorem fetch_perf_data_grows (gph : UserId → Except RemoteErr (Option (List RawPoint)))
    (users : List UserId) :
    ∀ (num : Nat) (s : FetchState),
      ∃ t, (fetch_perf gph users num s).1.data = s.data ++ t := by
  induction users with
  | nil => intro num s; exact ⟨[], by simp [fetch_perf_nil]⟩
  | cons u us ih =>
    intro num s
    rcases Nat.lt_or_ge s.checked num with hlt | hge
    · have hc : ¬s.checked ≥ num := by omega
      cases hl : lookupUser u s.data with
      | some p =>
        obtain ⟨t, ht⟩ := ih num (hitState s p)
        exact ⟨t, by rw [fetch_perf_hit gph u us num s p hc hl, ht, hitState_data]⟩
      | none =>
        cases hg : gph u with
        | error e =>
          exact ⟨[], by rw [fetch_perf_abort gph u us num s e hc hl hg]; simp [errState_data]⟩
        | ok hres =>
          obtain ⟨t, ht⟩ := ih num (missState s u hres)
          refine ⟨(u, hres) :: t, ?_⟩
          rw [fetch_perf_miss gph u us num s hres hc hl hg, ht, missState_data,
            List.append_assoc, List.singleton_append]
    · exact ⟨[], by rw [fetch_perf_stop gph u us num s hge]; simp⟩

/-- The save-after-every-append discipline: if the persisted snapshot
equals the in-memory cache at entry, it still does whenever the loop
returns, through hits, resolved misses and aborts alike. -/
theorem fetch_perf_persists (gph : UserId → Except RemoteErr (Option (List RawPoint)))
    (users : List UserId) :
    ∀ (num : Nat) (s : FetchState), s.persisted = s.data →
      (fetch_perf gph users num s).1.persisted = (fetch_perf gph users num s).1.data := by
  induction users with
  | nil => intro num s h; exact h
  | cons u us ih =>
    intro num s h
    rcases Nat.lt_or_ge s.checked num with hlt | hge
    · have hc : ¬s.checked ≥ num := by omega
      cases hl : lookupUser u s.data with
      | some p =>
        rw [fetch_perf_hit gph u us num s p hc hl]
        exact ih num (hitState s p) (by rw [hitState_persisted, hitState_data]; exact h)
      | none =>
        cases hg : gph u with
        | error e =>
          rw [fetch_perf_abort gph u us num s e hc hl hg]
          exact h
        | ok hres =>
          rw [fetch_perf_miss gph u us num s hres hc hl hg]
          exact ih num (missState s u hres) (by rw [missState_persisted, missState_data])
    · rw [fetch_perf_stop gph u us num s hge]; exact h

/-- A run over an entirely cached candidate list changes no data, makes
no remote call, never aborts, and still advances the checked counter up
to the cap. -/
theorem fetch_perf_all_cached (gph : UserId → Except RemoteErr (Option (List RawPoint)))
    (users : List UserId) :
    ∀ (num : Nat) (s : FetchState), (∀ u ∈ users, (lookupUser u s.data).isSome) →
      (fetch_perf gph users num s).1.data = s.data ∧
      (fetch_perf gph users num s).1.remoteCalls = s.remoteCalls ∧
      (fetch_perf gph users num s).2 = none ∧
      (fetch_perf gph users num s).1.checked =
        max s.checked (min (s.checked + users.length) num) := by
  induction users with
  | nil =>
    intro num s _
    refine ⟨rfl, rfl, rfl, ?_⟩
    rw [fetch_perf_nil]
    simp
  | cons u us ih =>
    intro num s hall
    rcases Nat.lt_or_ge s.checked num with hlt | hge
    · have hc : ¬s.checked ≥ num := by omega
      have hu := hall u (List.mem_cons_self u us)
      cases hl : lookupUser u s.data with
      | none => rw [hl] at hu; simp at hu
      | some p =>
        rw [fetch_perf_hit gph u us num s p hc hl]
        have hrest : ∀ w ∈ us, (lookupUser w (hitState s p).data).isSome := by
          intro w hw
          rw [hitState_data]
          exact hall w (List.mem_cons_of_mem _ hw)
        obtain ⟨h1, h2, h3, h4⟩ := ih num (hitState s p) hrest
        refine ⟨by rw [h1, hitState_data], by rw [h2, hitState_remoteCalls], h3, ?_⟩
        rw [h4, hitState_checked]
        simp only [List.length_cons]
        omega
    · rw [fetch_perf_stop gph u us num s hge]
      refine ⟨rfl, rfl, rfl, ?_⟩
      simp only [List.length_cons]
      omega

/-- Appending only unseen keys keeps the cache keys duplicate-free. -/
theorem fetch_perf_nodup (gph : UserId → Except RemoteErr (Option (List RawPoint)))
    (users : List UserId) :
    ∀ (num : Nat) (s : FetchState), (s.data.map Prod.fst).Nodup →
      ((fetch_perf gph users num s).1.data.map Prod.fst).Nodup := by
  induction users with
  | nil => intro num s h; exact h
  | cons u us ih =>
    intro num s h
    rcases Nat.lt_or_ge s.checked num with hlt | hge
    · have hc : ¬s.checked ≥ num := by omega
      cases hl : lookupUser u s.data with
      | some p =>
        rw [fetch_perf_hit gph u us num s p hc hl]
        exact ih num (hitState s p) (by rw [hitState_data]; exact h)
      | none =>
        cases hg : gph u with
        | error e =>
          rw [fetch_perf_abort gph u us num s e hc hl hg]
          exact h
        | ok hres =>
          rw [fetch_perf_miss gph u us num s hres hc hl hg]
          apply ih
          rw [missState_data, List.map_append]
          rw [List.nodup_append]
          refine ⟨h, by simp, ?_⟩
          intro a ha hb
          simp at hb
          have hne := (lookupUser_eq_none_iff u s.data).mp hl
          obtain ⟨e0, he0, he0a⟩ := List.mem_map.mp ha
          exact hne e0 he0 (by rw [he0a, hb])
    · rw [fetch_perf_stop gph u us num s hge]
      exact h

/-- The per-user body of filter_perf written with the four independent
closest-point searches. -/
theorem userSample_closest (start end_ : Day) (tolerance : Nat) (ref_start ref_end : Day)
    (ref_tolerance : Nat) (perf : List (Day × Score)) :
    userSample start end_ tolerance ref_start ref_end ref_tolerance perf =
      if truthy (closestTo start perf).2 = true ∧
         dist (closestTo start perf).1 start ≤ tolerance ∧
         truthy (closestTo ref_start perf).2 = true ∧
         dist (closestTo ref_start perf).1 ref_start ≤ tolerance ∧
         truthy (closestTo end_ perf).2 = true ∧
         dist (closestTo end_ perf).1 end_ ≤ ref_tolerance ∧
         truthy (closestTo ref_end perf).2 = true ∧
         dist (closestTo ref_end perf).1 ref_end ≤ ref_tolerance
      then some ((closestTo start perf).2.getD 0, (closestTo end_ perf).2.getD 0,
                 (closestTo ref_start perf).2.getD 0, (closestTo ref_end perf).2.getD 0)
      else none := by
  unfold userSample
  rw [gatherClosest_eq]

theorem closestTo_singleton (target d : Day) (v : Score) :
    closestTo target [(d, v)] =
      if dist d target < dist target dateMin then (d, some v) else (dateMin, none) := rfl

theorem filter_perf_singleton (u : UserId) (perf : List (Day × Score)) (start end_ : Day)
    (tolerance : Nat) (ref_start ref_end : Day) (ref_tolerance : Nat) :
    filter_perf [(u, perf)] start end_ tolerance ref_start ref_end ref_tolerance =
      match userSample start end_ tolerance ref_start ref_end ref_tolerance perf with
      | some t => [t]
      | none => [] := by
  unfold filter_perf
  cases h : userSample start end_ tolerance ref_start ref_end ref_tolerance perf <;>
    simp [List.filterMap_cons, h]

theorem parse_perf_cons_none (u : UserId) (rest : Cache) :
    parse_perf ((u, none) :: rest) = parse_perf rest := rfl

theorem parse_perf_cons_empty (u : UserId) (rest : Cache) :
    parse_perf ((u, some []) :: rest) = parse_perf rest := rfl

theorem parse_perf_cons_some (u : UserId) (p : RawPoint) (ps : List RawPoint)
    (rest : Cache) :
    parse_perf ((u, some (p :: ps)) :: rest) =
      (u, (p :: ps).map normPoint) :: parse_perf rest := rfl

/-- Every user with a present, non-empty raw history appears in the
parse_perf output with exactly its normalized points, in order. -/
theorem parse_perf_complete (data : Cache) :
    ∀ u rawPerf, (u, some rawPerf) ∈ data → rawPerf ≠ [] →
      (u, rawPerf.map normPoint) ∈ parse_perf data := by
  induction data with
  | nil => intro u rawPerf hmem; simp at hmem
  | cons entry rest ih =>
    obtain ⟨u0, perf0⟩ := entry
    intro u rawPerf hmem hne
    rcases List.mem_cons.mp hmem with heq | hmem2
    · injection heq with h1 h2
      subst h1
      rw [← h2]
      cases rawPerf with
      | nil => exact absurd rfl hne
      | cons p ps =>
        rw [parse_perf_cons_some]
        exact List.mem_cons_self _ _
    · have hmem3 := ih u rawPerf hmem2 hne
      cases perf0 with
      | none => rw [parse_perf_cons_none]; exact hmem3
      | some l =>
        cases l with
        | nil => rw [parse_perf_cons_empty]; exact hmem3
        | cons p ps =>
          rw [parse_perf_cons_some]
          exact List.mem_cons_of_mem _ hmem3

/-- Every parse_perf output entry comes from a present, non-empty raw
history, of which it is the order-preserving normalization. -/
theorem parse_perf_sound (data : Cache) :
    ∀ e ∈ parse_perf data, ∃ rawPerf, (e.1, some rawPerf) ∈ data ∧ rawPerf ≠ [] ∧
      e.2 = rawPerf.map normPoint := by
  induction data with
  | nil => intro e he; simp [parse_perf] at he
  | cons entry rest ih =>
    obtain ⟨u0, perf0⟩ := entry
    intro e he
    cases perf0 with
    | none =>
      rw [parse_perf_cons_none] at he
      obtain ⟨rawPerf, h1, h2, h3⟩ := ih e he
      exact ⟨rawPerf, List.mem_cons_of_mem _ h1, h2, h3⟩
    | some l =>
      cases l with
      | nil =>
        rw [parse_perf_cons_empty] at he
        obtain ⟨rawPerf, h1, h2, h3⟩ := ih e he
        exact ⟨rawPerf, List.mem_cons_of_mem _ h1, h2, h3⟩
      | cons p ps =>
        rw [parse_perf_cons_some] at he
        rcases List.mem_cons.mp he with heq | he2
        · subst heq
          exact ⟨p :: ps, List.mem_cons_self _ _, by simp, rfl⟩
        · obtain ⟨rawPerf, h1, h2, h3⟩ := ih e he2
          exact ⟨rawPerf, List.mem_cons_of_mem _ h1, h2, h3⟩

/-- In a cache with duplicate-free keys, a key determines its entry. -/
theorem nodup_key_unique {l : Cache} (hnd : (l.map Prod.fst).Nodup)
    {u : UserId} {p q : Perf} (hp : (u, p) ∈ l) (hq : (u, q) ∈ l) : p = q := by
  induction l with
  | nil => simp at hp
  | cons e rest ih =>
    rw [List.map_cons, List.nodup_cons] at hnd
    obtain ⟨hne, hnd2⟩ := hnd
    rcases List.mem_cons.mp hp with hp1 | hp2 <;> rcases List.mem_cons.mp hq with hq1 | hq2
    · rw [← hp1] at hq1
      injection hq1 with h1 h2
      exact h2.symm
    · exfalso
      apply hne
      rw [← hp1]
      exact List.mem_map.mpr ⟨(u, q), hq2, rfl⟩
    · exfalso
      apply hne
      rw [← hq1]
      exact List.mem_map.mpr ⟨(u, p), hp2, rfl⟩
    · exact ih hnd2 hp2 hq2

/-- Claim C2: the nearest-match search of filter_perf scans the points
in stored order and replaces the incumbent only on strictly smaller
absolute day distance, so the first point attaining the minimum distance
is the one selected (ties keep the earlier point). Stated as: whenever
some point beats the initial sentinel date, the search returns exactly
the first minimal-distance point of the sequence. -/
theorem claim_C2_first_min_tiebreak (target : Day) (perf : List (Day × Score))
    (hin : ∃ p ∈ perf, dist p.1 target < dist target dateMin) :
    ∃ q, firstMin target perf = some q ∧ closestTo target perf = (q.1, some q.2) := by
  obtain ⟨p, hp, hlt⟩ := hin
  cases perf with
  | nil => simp at hp
  | cons a as =>
    obtain ⟨q, hq⟩ := firstMin_isSome target a as
    refine ⟨q, hq, ?_⟩
    unfold closestTo
    rw [foldl_closestStep]
    simp only [hq]
    have hql : dist q.1 target ≤ dist p.1 target := firstMin_le target _ q hq p hp
    have hcond : dist q.1 target < dist (dateMin, (none : Option Score)).1 target := by
      show dist q.1 target < dist dateMin target
      rw [dist_comm target dateMin] at hlt
      exact lt_of_le_of_lt hql hlt
    rw [if_pos hcond]

/-- Claim C2 witness: two points at equal distance 3 from the target;
the first one in insertion order is selected. -/
theorem claim_C2_first_min_tiebreak_witness :
    ∃ q, firstMin 10 [((7 : Day), (100 : Score)), (13, 200)] = some q ∧
      closestTo 10 [((7 : Day), (100 : Score)), (13, 200)] = (q.1, some q.2) :=
  claim_C2_first_min_tiebreak 10 [((7 : Day), (100 : Score)), (13, 200)]
    ⟨(7, 100), by simp, by decide⟩

/-- Claim C4: retry invokes the operation once; on a throttling (429)
response it sleeps a fixed 61 second cooldown (at least 61 seconds) and
retries exactly once, a throttling error on the retry propagates, and
any non-throttling error propagates immediately with no retry and no
sleep; in every case at most two invocations happen. -/
theorem claim_C4_retry_throttle {A : Type} (f : Nat → Except RemoteErr A) :
    (retry f).calls ≤ 2 ∧
    (∀ a, f 0 = .ok a → retry f = ⟨1, 0, .ok a⟩) ∧
    (∀ s, s ≠ 429 → f 0 = .error (.response s) →
      retry f = ⟨1, 0, .error (.response s)⟩) ∧
    (f 0 = .error .other → retry f = ⟨1, 0, .error .other⟩) ∧
    (∀ a, f 0 = .error (.response 429) → f 1 = .ok a →
      retry f = ⟨2, 61, .ok a⟩ ∧ 61 ≤ (retry f).sleepSeconds) ∧
    (∀ e, f 0 = .error (.response 429) → f 1 = .error e →
      retry f = ⟨2, 61, .error e⟩) := by
  refine ⟨?_, ?_, ?_, ?_, ?_, ?_⟩
  · unfold retry
    cases h0 : f 0 with
    | ok a => simp
    | error e =>
      cases e with
      | other => simp
      | response s =>
        by_cases hs : s = 429
        · subst hs
          simp only [if_pos rfl]
          cases h1 : f 1 <;> simp
        · simp [hs]
  · intro a h0; simp [retry, h0]
  · intro s hs h0; simp [retry, h0, hs]
  · intro h0; simp [retry, h0]
  · intro a h0 h1
    have hr : retry f = ⟨2, 61, .ok a⟩ := by simp [retry, h0, h1]
    exact ⟨hr, by rw [hr]⟩
  · intro e h0 h1; simp [retry, h0, h1]

/-- Claim C4 witness: an operation that throttles exactly once and then
succeeds is called twice, sleeps the 61 second cooldown once, and
returns the successful result. -/
theorem claim_C4_retry_throttle_witness :
    retry (fun n => if n = 0 then Except.error (RemoteErr.response 429)
                    else Except.ok (5 : Nat)) = ⟨2, 61, Except.ok 5⟩ :=
  ((claim_C4_retry_throttle
    (fun n => if n = 0 then Except.error (RemoteErr.response 429)
              else Except.ok (5 : Nat))).2.2.2.2.1 5 rfl rfl).1

/-- Claim C1 fails on the code: filter_perf compares the end and refEnd
matches against ref_tolerance and the start and refStart matches against
tolerance. With study tolerance 0 and reference tolerance 10, a user
whose end match is 5 days off is accepted by the code although the
pairing of the claim rejects it, and a user whose refStart match is
5 days off is rejected by the code although the pairing of the claim
accepts it. -/
theorem claim_C1_tolerance_pairing :
    filter_perf [("u", [((100 : Day), (10 : Score)), (205, 20), (300, 30), (400, 40)])]
        100 200 0 300 400 10 = [(10, 20, 30, 40)] ∧
    meetsCriteriaSpec 100 200 0 300 400 10
        (closestTo 100 [((100 : Day), (10 : Score)), (205, 20), (300, 30), (400, 40)])
        (closestTo 200 [((100 : Day), (10 : Score)), (205, 20), (300, 30), (400, 40)])
        (closestTo 300 [((100 : Day), (10 : Score)), (205, 20), (300, 30), (400, 40)])
        (closestTo 400 [((100 : Day), (10 : Score)), (205, 20), (300, 30), (400, 40)])
      = false ∧
    filter_perf [("u", [((100 : Day), (10 : Score)), (200, 20), (305, 30), (400, 40)])]
        100 200 0 300 400 10 = [] ∧
    meetsCriteriaSpec 100 200 0 300 400 10
        (closestTo 100 [((100 : Day), (10 : Score)), (200, 20), (305, 30), (400, 40)])
        (closestTo 200 [((100 : Day), (10 : Score)), (200, 20), (305, 30), (400, 40)])
        (closestTo 300 [((100 : Day), (10 : Score)), (200, 20), (305, 30), (400, 40)])
        (closestTo 400 [((100 : Day), (10 : Score)), (200, 20), (305, 30), (400, 40)])
      = true := by
  decide

/-- Claim C8: the tolerance comparison of filter_perf is inclusive. A
user whose only point, hence nearest match for all four targets, lies
exactly tol days from the common target passes; at tol plus one days it
is rejected. The side condition keeps the point closer to the target
than the sentinel datetime.date.min is. -/
theorem claim_C8_tolerance_boundary (target : Day) (tol : Nat) (v : Score)
    (hv : v ≠ 0) (h : (tol : Int) + 1 < target - 1) :
    filter_perf [("u", [(target + (tol : Int), v)])] target target tol target target tol
      = [(v, v, v, v)] ∧
    filter_perf [("u", [(target + (tol : Int) + 1, v)])] target target tol target target tol
      = [] := by
  have hd1 : dist (target + (tol : Int)) target = tol := by
    unfold dist
    omega
  have hd2 : dist (target + (tol : Int) + 1) target = tol + 1 := by
    unfold dist
    omega
  have hs1 : dist (target + (tol : Int)) target < dist target dateMin := by
    unfold dist dateMin
    omega
  have hs2 : dist (target + (tol : Int) + 1) target < dist target dateMin := by
    unfold dist dateMin
    omega
  have hc1 : closestTo target [(target + (tol : Int), v)] =
      (target + (tol : Int), some v) := by
    rw [closestTo_singleton, if_pos hs1]
  have hc2 : closestTo target [(target + (tol : Int) + 1, v)] =
      (target + (tol : Int) + 1, some v) := by
    rw [closestTo_singleton, if_pos hs2]
  constructor
  · rw [filter_perf_singleton, userSample_closest, hc1]
    simp [truthy, hv, hd1]
  · rw [filter_perf_singleton, userSample_closest, hc2]
    simp [truthy, hv, hd2]

/-- Claim C8 witness: target at ordinal 100, tolerance 7, value 50. -/
theorem claim_C8_tolerance_boundary_witness :
    filter_perf [("u", [((107 : Day), (50 : Score))])] 100 100 7 100 100 7
      = [(50, 50, 50, 50)] ∧
    filter_perf [("u", [((108 : Day), (50 : Score))])] 100 100 7 100 100 7 = [] :=
  claim_C8_tolerance_boundary 100 7 50 (by decide) (by decide)

/-- Claim C10: a nearest match whose recorded value is the integer 0 is
falsy to the acceptance test, so the user is dropped no matter the
distances: the body returns no tuple and filter_perf emits nothing for
that user. -/
theorem claim_C10_zero_score_excluded (start end_ : Day) (tolerance : Nat)
    (ref_start ref_end : Day) (ref_tolerance : Nat) (perf : List (Day × Score))
    (h : (closestTo start perf).2 = some 0 ∨ (closestTo end_ perf).2 = some 0 ∨
         (closestTo ref_start perf).2 = some 0 ∨ (closestTo ref_end perf).2 = some 0) :
    userSample start end_ tolerance ref_start ref_end ref_tolerance perf = none ∧
    ∀ u : UserId,
      filter_perf [(u, perf)] start end_ tolerance ref_start ref_end ref_tolerance
        = [] := by
  have hu : userSample start end_ tolerance ref_start ref_end ref_tolerance perf
      = none := by
    rw [userSample_closest]
    rcases h with h | h | h | h <;> simp [h, truthy]
  refine ⟨hu, ?_⟩
  intro u
  rw [filter_perf_singleton, hu]

/-- Claim C10 witness: the point on the study start date carries value 0
and all four matches are within tolerance 7, yet the user is dropped. -/
theorem claim_C10_zero_score_excluded_witness :
    userSample 100 200 7 300 400 7
      [((100 : Day), (0 : Score)), (200, 5), (300, 6), (400, 9)] = none ∧
    ∀ u : UserId,
      filter_perf [(u, [((100 : Day), (0 : Score)), (200, 5), (300, 6), (400, 9)])]
        100 200 7 300 400 7 = [] :=
  claim_C10_zero_score_excluded 100 200 7 300 400 7
    [((100 : Day), (0 : Score)), (200, 5), (300, 6), (400, 9)] (Or.inl (by decide))

/-- Claim C9: parse_perf keeps exactly the users with a present,
non-empty cached history, maps each raw point (year, zero-based month,
day, value) to ((year, month + 1, day), value) applying the month shift
exactly once, and preserves the stored point order; users cached as None
or with an empty history contribute nothing. -/
theorem claim_C9_parse_normalization (data : Cache) :
    (∀ p : RawPoint, normPoint p = ((p.y, p.m + 1, p.d), p.v)) ∧
    (∀ u rawPerf, (u, some rawPerf) ∈ data → rawPerf ≠ [] →
      (u, rawPerf.map normPoint) ∈ parse_perf data) ∧
    (∀ e ∈ parse_perf data, ∃ rawPerf, (e.1, some rawPerf) ∈ data ∧ rawPerf ≠ [] ∧
      e.2 = rawPerf.map normPoint) :=
  ⟨fun _ => rfl, parse_perf_complete data, parse_perf_sound data⟩

/-- Claim C9 witness: a cache with one user with data, one cached None
and one cached empty history; only the first survives, normalized. -/
theorem claim_C9_parse_normalization_witness :
    (("a", [(((2020 : Nat), (3 : Nat), (4 : Nat)), (110 : Int))]) ∈ parse_perf wCache) ∧
    (∃ rawPerf, (("a", some rawPerf) ∈ wCache) ∧ rawPerf ≠ [] ∧
      [(((2020 : Nat), (3 : Nat), (4 : Nat)), (110 : Int))] = rawPerf.map normPoint) :=
  ⟨(claim_C9_parse_normalization wCache).2.1 "a" [wPoint] (by decide) (by decide),
   (claim_C9_parse_normalization wCache).2.2
     ("a", [(((2020 : Nat), (3 : Nat), (4 : Nat)), (110 : Int))]) (by decide)⟩

/-- Claim C5: a run over fully cached candidates changes no data, makes
zero remote calls and does not abort, while every cached user still
advances the checked counter toward the limit; and the cache keeps at
most one entry per user, even when the candidate list repeats users. -/
theorem claim_C5_idempotent_cache
    (gph : UserId → Except RemoteErr (Option (List RawPoint)))
    (users : List UserId) (num : Nat) (s : FetchState) :
    ((∀ u ∈ users, (lookupUser u s.data).isSome) →
      (fetch_perf gph users num s).1.data = s.data ∧
      (fetch_perf gph users num s).1.remoteCalls = s.remoteCalls ∧
      (fetch_perf gph users num s).2 = none ∧
      (fetch_perf gph users num s).1.checked =
        max s.checked (min (s.checked + users.length) num)) ∧
    ((s.data.map Prod.fst).Nodup →
      ((fetch_perf gph users num s).1.data.map Prod.fst).Nodup) :=
  ⟨fetch_perf_all_cached gph users num s, fetch_perf_nodup gph users num s⟩

/-- Claim C5 witness: a pre-populated two-user cache and a candidate
list that repeats a cached user; no remote call, unchanged cache, three
checked users, duplicate-free keys. -/
theorem claim_C5_idempotent_cache_witness :
    ((fetch_perf wGph ["a", "b", "a"] 10 wState).1.data = wState.data ∧
     (fetch_perf wGph ["a", "b", "a"] 10 wState).1.remoteCalls = wState.remoteCalls ∧
     (fetch_perf wGph ["a", "b", "a"] 10 wState).2 = none ∧
     (fetch_perf wGph ["a", "b", "a"] 10 wState).1.checked =
       max wState.checked (min (wState.checked + (["a", "b", "a"] : List UserId).length) 10)) ∧
    ((fetch_perf wGph ["a", "b", "a"] 10 wState).1.data.map Prod.fst).Nodup :=
  ⟨(claim_C5_idempotent_cache wGph ["a", "b", "a"] 10 wState).1 (by decide),
   (claim_C5_idempotent_cache wGph ["a", "b", "a"] 10 wState).2 (by decide)⟩

/-- Claim C6: starting from a state whose persisted snapshot equals the
in-memory cache, the snapshot equals the cache again whenever the loop
returns, through hits, saved misses and aborts alike, and the final
cache extends the initial one; no committed entry is ever unpersisted
or lost when the loop stops. -/
theorem claim_C6_persist_before_advance
    (gph : UserId → Except RemoteErr (Option (List RawPoint)))
    (users : List UserId) (num : Nat) (s : FetchState)
    (h : s.persisted = s.data) :
    (fetch_perf gph users num s).1.persisted = (fetch_perf gph users num s).1.data ∧
    ∃ t, (fetch_perf gph users num s).1.data = s.data ++ t :=
  ⟨fetch_perf_persists gph users num s h, fetch_perf_data_grows gph users num s⟩

/-- Claim C6 witness: two misses from the empty cache leave the
persisted snapshot equal to the grown cache. -/
theorem claim_C6_persist_before_advance_witness :
    (fetch_perf wGph ["x", "y"] 10 wEmptyState).1.persisted =
      (fetch_perf wGph ["x", "y"] 10 wEmptyState).1.data ∧
    ∃ t, (fetch_perf wGph ["x", "y"] 10 wEmptyState).1.data = wEmptyState.data ++ t :=
  claim_C6_persist_before_advance wGph ["x", "y"] 10 wEmptyState rfl

/-- Claim C3 counterexample: a ResponseError with status 500 from the
rating-history call is neither recorded as no data nor skipped; the
exception propagates out of get_puzzle_history and aborts the whole
fetch run, with the second candidate never examined and the cache
unchanged. -/
theorem claim_C3_counterexample :
    get_puzzle_history (fun _ => Except.error (RemoteErr.response 500)) =
      Except.error (RemoteErr.response 500) ∧
    fetch_perf (fun _ => get_puzzle_history (fun _ => Except.error (RemoteErr.response 500)))
      ["alice", "bob"] 10 wEmptyState =
      (⟨[], [], 1, 0, 0, 1⟩, some (RemoteErr.response 500)) :=
  ⟨rfl, rfl⟩

/-- Claim C3 amended: only a failure that is not an HTTP ResponseError
is recorded as no data and skipped; a ResponseError whose status is
neither 404 nor 429 is re-raised by get_puzzle_history, and in the fetch
loop a resolved no-data result is appended and the loop continues while
a propagated error aborts it at that user. -/
theorem claim_C3_amended_error_isolation :
    (∀ attempt : Nat → Except RemoteErr (List TrackEntry),
      attempt 0 = Except.error RemoteErr.other →
      get_puzzle_history attempt = Except.ok none) ∧
    (∀ s : Nat, s ≠ 404 → s ≠ 429 →
      ∀ attempt : Nat → Except RemoteErr (List TrackEntry),
        attempt 0 = Except.error (RemoteErr.response s) →
        get_puzzle_history attempt = Except.error (RemoteErr.response s)) ∧
    (∀ (gph : UserId → Except RemoteErr (Option (List RawPoint))) (u : UserId)
       (us : List UserId) (num : Nat) (st : FetchState),
      ¬st.checked ≥ num → lookupUser u st.data = none → gph u = Except.ok none →
      fetch_perf gph (u :: us) num st = fetch_perf gph us num (missState st u none)) ∧
    (∀ (gph : UserId → Except RemoteErr (Option (List RawPoint))) (u : UserId)
       (us : List UserId) (num : Nat) (st : FetchState) (e : RemoteErr),
      ¬st.checked ≥ num → lookupUser u st.data = none → gph u = Except.error e →
      fetch_perf gph (u :: us) num st = (errState st, some e)) := by
  refine ⟨?_, ?_, ?_, ?_⟩
  · intro attempt h0
    simp [get_puzzle_history, h0]
  · intro s h404 h429 attempt h0
    simp [get_puzzle_history, h0, h404, h429]
  · intro gph u us num st hc hl hg
    exact fetch_perf_miss gph u us num st none hc hl hg
  · intro gph u us num st e hc hl hg
    exact fetch_perf_abort gph u us num st e hc hl hg

/-- Claim C3 amended witness: a non-HTTP failure is absorbed as no data,
a 500 response propagates, a resolved no-data miss continues the loop,
and a propagating error stops it. -/
theorem claim_C3_amended_error_isolation_witness :
    get_puzzle_history (fun _ => Except.error RemoteErr.other) = Except.ok none ∧
    get_puzzle_history (fun _ => Except.error (RemoteErr.response 502)) =
      Except.error (RemoteErr.response 502) ∧
    fetch_perf wGph ["c"] 10 wState = fetch_perf wGph [] 10 (missState wState "c" none) ∧
    fetch_perf wGphErr ["c"] 10 wState =
      (errState wState, some (RemoteErr.response 500)) :=
  ⟨claim_C3_amended_error_isolation.1 _ rfl,
   claim_C3_amended_error_isolation.2.1 502 (by decide) (by decide) _ rfl,
   claim_C3_amended_error_isolation.2.2.1 wGph "c" [] 10 wState (by decide) (by decide) rfl,
   claim_C3_amended_error_isolation.2.2.2 wGphErr "c" [] 10 wState
     (RemoteErr.response 500) (by decide) (by decide) rfl⟩

/-- Claim C7: a 404 response, and a returned history with no Puzzles
track, both yield an explicit no-data (None) result; the fetch loop
appends (user, None), persists, and continues, after which the user is
a cache hit in the final cache; processing a cached user performs no
remote call and changes no data; and a user cached as None never
contributes an entry to the parse_perf output, hence appears in no
sample. -/
theorem claim_C7_no_history_excluded :
    (∀ attempt : Nat → Except RemoteErr (List TrackEntry),
      attempt 0 = Except.error (RemoteErr.response 404) →
      get_puzzle_history attempt = Except.ok none) ∧
    (∀ history : List TrackEntry, (∀ t ∈ history, t.name ≠ "Puzzles") →
      ∀ attempt : Nat → Except RemoteErr (List TrackEntry),
        attempt 0 = Except.ok history → get_puzzle_history attempt = Except.ok none) ∧
    (∀ (gph : UserId → Except RemoteErr (Option (List RawPoint))) (u : UserId)
       (us : List UserId) (num : Nat) (st : FetchState),
      ¬st.checked ≥ num → lookupUser u st.data = none → gph u = Except.ok none →
      fetch_perf gph (u :: us) num st = fetch_perf gph us num (missState st u none) ∧
      lookupUser u (fetch_perf gph (u :: us) num st).1.data = some none) ∧
    (∀ (gph : UserId → Except RemoteErr (Option (List RawPoint))) (u : UserId)
       (us : List UserId) (num : Nat) (st : FetchState) (p : Perf),
      ¬st.checked ≥ num → lookupUser u st.data = some p →
      fetch_perf gph (u :: us) num st = fetch_perf gph us num (hitState st p) ∧
      (hitState st p).remoteCalls = st.remoteCalls ∧ (hitState st p).data = st.data) ∧
    (∀ (data : Cache) (u : UserId), (u, (none : Perf)) ∈ data →
      (data.map Prod.fst).Nodup → ∀ e ∈ parse_perf data, e.1 ≠ u) := by
  refine ⟨?_, ?_, ?_, ?_, ?_⟩
  · intro attempt h0
    simp [get_puzzle_history, h0]
  · intro history hname attempt h0
    have hf : history.filter (fun h => h.name == "Puzzles") = [] := by
      rw [List.filter_eq_nil_iff]
      intro t ht
      simp [hname t ht]
    simp [get_puzzle_history, h0, puzzleTrack, hf]
  · intro gph u us num st hc hl hg
    have hstep := fetch_perf_miss gph u us num st none hc hl hg
    refine ⟨hstep, ?_⟩
    obtain ⟨t, ht⟩ := fetch_perf_data_grows gph us num (missState st u none)
    rw [hstep, ht, missState_data, List.append_assoc,
      lookupUser_append_of_none u st.data _ hl, List.singleton_append, lookupUser_cons]
    simp
  · intro gph u us num st p hc hl
    exact ⟨fetch_perf_hit gph u us num st p hc hl, rfl, rfl⟩
  · intro data u hmem hnd e he
    intro heq
    obtain ⟨rawPerf, h1, h2, h3⟩ := parse_perf_sound data e he
    rw [heq] at h1
    exact Option.noConfusion (nodup_key_unique hnd h1 hmem)

/-- Claim C7 witness: a 404 user and a user with only a Blitz track are
both recorded as no data; a no-data miss is appended and found on later
lookup; a cached user triggers nothing; the user cached as None is in no
parse_perf entry. -/
theorem claim_C7_no_history_excluded_witness :
    get_puzzle_history (fun _ => Except.error (RemoteErr.response 404)) = Except.ok none ∧
    get_puzzle_history (fun _ => Except.ok [⟨"Blitz", [wPoint]⟩]) = Except.ok none ∧
    (fetch_perf wGph ["c"] 10 wState = fetch_perf wGph [] 10 (missState wState "c" none) ∧
     lookupUser "c" (fetch_perf wGph ["c"] 10 wState).1.data = some none) ∧
    (fetch_perf wGph ["a"] 10 wState =
       fetch_perf wGph [] 10 (hitState wState (some [wPoint])) ∧
     (hitState wState (some [wPoint])).remoteCalls = wState.remoteCalls ∧
     (hitState wState (some [wPoint])).data = wState.data) ∧
    (∀ e ∈ parse_perf wCache, e.1 ≠ "b") :=
  ⟨claim_C7_no_history_excluded.1 _ rfl,
   claim_C7_no_history_excluded.2.1 [⟨"Blitz", [wPoint]⟩] (by decide) _ rfl,
   claim_C7_no_history_excluded.2.2.1 wGph "c" [] 10 wState (by decide) (by decide) rfl,
   claim_C7_no_history_excluded.2.2.2.1 wGph "a" [] 10 wState (some [wPoint])
     (by decide) (by decide),
   claim_C7_no_history_excluded.2.2.2.2 wCache "b" (by decide) (by decide)⟩

end LichessPuzzleStats
